import Mathlib

/-!
Shallow embedding of the API stress-testing tool (src/main.py) and proofs
about its dispatch loop, per-request result construction, and logging sink.

Modelling conventions:

* The HTTP transport (httpx) is an external capability.  It is modelled by an
  environment `Env` that maps each `request_id` to the outcome of
  `client.request(...)`: either a completed `HttpResponse` or a raised
  exception message.  The environment also supplies the wall-clock artefacts
  (timestamp string, measured elapsed milliseconds) that the code reads from
  real time, and whether the `open`/`write` inside `_log_result` raises.
* Python `int` is modelled as `Int` (arbitrary precision, may be negative);
  `range(n)` for `n ≤ 0` is empty, matching `Int.toNat`.
* The Python result dict is modelled as a `Result` structure.  A key that is
  either absent from the dict or explicitly set to `None` (serialised as JSON
  `null`) is modelled uniformly as `Option.none`: in particular the failure
  branch of `make_request` writes `"status_code": None`, modelled as
  `status_code = none`.
* The JSONL log file is modelled as a `List Result` of appended records
  (serialisation of each record to its JSON line is external).  `_log_result`
  appends one record, or raises when the environment says the write fails.
* `asyncio` batching: `run` creates tasks one by one and `await`s a
  `gather` of the accumulated tasks whenever their number reaches
  `concurrent_requests`, then continues with an empty buffer; a final
  `gather` drains the leftovers.  Batches therefore execute strictly
  sequentially, and the model executes each batch's requests in task order
  (the real completion interleaving inside one batch only permutes the order
  of log lines within that batch, which no proved statement depends on).
-/

namespace StressTest

/-- A parsed JSON value, the result of a successful `response.json()` call. -/
inductive JsonVal where
  | null : JsonVal
  | bool (b : Bool) : JsonVal
  | num (q : Rat) : JsonVal
  | str (s : String) : JsonVal
  | arr (elems : List JsonVal) : JsonVal
  | obj (fields : List (String × JsonVal)) : JsonVal

/-- The `response_body` field: the parsed JSON value when `response.json()`
succeeds, otherwise the raw `response.text`. -/
inductive RespBody where
  | json (v : JsonVal) : RespBody
  | text (s : String) : RespBody

/-- One per-request record, mirroring the dict built by
`APIStressTester.make_request`.  `none` models an absent key or a key set to
Python `None` (JSON `null`). -/
structure Result where
  request_id : Nat
  timestamp : String
  url : String
  method : String
  headers : List (String × String)
  params : List (String × String)
  status_code : Option Int
  response_time_ms : Rat
  success : Bool
  response_headers : Option (List (String × String))
  content_length : Option Nat
  response_body : Option RespBody
  error : Option String

/-- A completed HTTP exchange as returned by `client.request`.  `json` is
`some v` when `response.json()` parses to `v` and `none` when it raises
(the bare `except:` then falls back to `response.text`). -/
structure HttpResponse where
  status_code : Int
  headers : List (String × String)
  content : List Nat
  json : Option JsonVal
  text : String

/-- Outcome of `await client.request(...)` for one request: a completed
response, or a raised exception whose `str(e)` is `msg`. -/
inductive HttpOutcome where
  | resp (r : HttpResponse) : HttpOutcome
  | exn (msg : String) : HttpOutcome

/-- External world of one run, indexed by `request_id` (each id is used for
exactly one request).  `sinkErr rid = some e` means the `open`/`write` in
`_log_result` raises with message `e` for that request's record. -/
structure Env where
  http : Nat → HttpOutcome
  elapsedMs : Nat → Rat
  startTimestamp : Nat → String
  sinkErr : Nat → Option String

/-- The `APIStressTester` object state set up by `__init__`. -/
structure APIStressTester where
  base_url : String
  total_requests : Int
  concurrent_requests : Int
  headers : List (String × String)
  params : List (String × String)
  method : String
  log_file : String
  timeout : Rat
  results : List Result

/-- `APIStressTester.__init__`: stores the configuration unvalidated,
uppercases the method, defaults absent header/param maps to empty, and
initialises `self.results = []`. -/
def APIStressTester.init (base_url : String) (total_requests : Int)
    (concurrent_requests : Int) (headers : Option (List (String × String)))
    (params : Option (List (String × String))) (method : String)
    (log_file : String) (timeout : Rat) : APIStressTester :=
  { base_url := base_url
    total_requests := total_requests
    concurrent_requests := concurrent_requests
    headers := headers.getD []
    params := params.getD []
    method := method.toUpper
    log_file := log_file
    timeout := timeout
    results := [] }

/-- The result dict built by the body of `make_request` before it is handed
to `_log_result`: the base fields, then either the completed-response update
(status code, timing, 2xx success flag, response headers, content length,
JSON-or-text body) or the exception update (`status_code = None`, timing,
`success = False`, `error = str(e)`). -/
def APIStressTester.buildResult (t : APIStressTester) (env : Env)
    (request_id : Nat) : Result :=
  match env.http request_id with
  | HttpOutcome.resp r =>
      { request_id := request_id
        timestamp := env.startTimestamp request_id
        url := t.base_url
        method := t.method
        headers := t.headers
        params := t.params
        status_code := some r.status_code
        response_time_ms := env.elapsedMs request_id
        success := decide (200 ≤ r.status_code ∧ r.status_code < 300)
        response_headers := some r.headers
        content_length := some r.content.length
        response_body := some (match r.json with
          | some j => RespBody.json j
          | none => RespBody.text r.text)
        error := none }
  | HttpOutcome.exn msg =>
      { request_id := request_id
        timestamp := env.startTimestamp request_id
        url := t.base_url
        method := t.method
        headers := t.headers
        params := t.params
        status_code := none
        response_time_ms := env.elapsedMs request_id
        success := false
        response_headers := none
        content_length := none
        response_body := none
        error := some msg }

/-- `_log_result`: append one record to the log file, or raise the write
error the environment dictates.  Returns the file contents and the raised
error, if any. -/
def APIStressTester.log_result (t : APIStressTester) (env : Env) (r : Result)
    (log : List Result) : List Result × Option String :=
  match env.sinkErr r.request_id with
  | some e => (log, some e)
  | none => (log ++ [r], none)

/-- `make_request`: build the result dict (capturing any transport exception
into it), pass it to `_log_result` — which sits outside the `try`, so a sink
write error propagates as `Except.error` — and otherwise return the result. -/
def APIStressTester.make_request (t : APIStressTester) (env : Env)
    (request_id : Nat) (log : List Result) :
    List Result × Except String Result :=
  let result := t.buildResult env request_id
  match t.log_result env result log with
  | (log', none) => (log', Except.ok result)
  | (log', some e) => (log', Except.error e)

/-- The task-buffer loop of `run`: append each id to `tasks`, and flush a
batch whenever `len(tasks) >= self.concurrent_requests`; a trailing
`if tasks:` flushes the leftovers.  Returns the list of flushed batches in
order. -/
def dispatchLoop : List Nat → List Nat → Int → List (List Nat)
  | [], tasks, _ => if tasks.isEmpty then [] else [tasks]
  | id :: rest, tasks, c =>
      if c ≤ ((tasks ++ [id]).length : Int) then
        (tasks ++ [id]) :: dispatchLoop rest [] c
      else
        dispatchLoop rest (tasks ++ [id]) c

/-- The request ids created by `for i in range(self.total_requests):
make_request(client, i + 1)`. -/
def APIStressTester.dispatchIds (t : APIStressTester) : List Nat :=
  (List.range t.total_requests.toNat).map (fun i => i + 1)

/-- The batches `run` dispatches, in order. -/
def APIStressTester.batches (t : APIStressTester) : List (List Nat) :=
  dispatchLoop t.dispatchIds [] t.concurrent_requests

/-- One `await asyncio.gather(*tasks)`: every task of the batch executes
(performing its request and its log append), and the first task exception —
here only sink write errors, see `make_request` — is re-raised after the
batch.  Returns the file contents and the propagated error, if any. -/
def runBatch (t : APIStressTester) (env : Env) :
    List Nat → List Result → List Result × Option String
  | [], log => (log, none)
  | rid :: rest, log =>
      match t.make_request env rid log with
      | (log', Except.ok _) => runBatch t env rest log'
      | (log', Except.error e) =>
          ((runBatch t env rest log').1, some e)

/-- The sequence of batch gathers in `run`: batches execute strictly one
after another, and a raised gather exception aborts the loop (later batches
are never dispatched). -/
def runBatches (t : APIStressTester) (env : Env) :
    List (List Nat) → List Result → List Result × Option String
  | [], log => (log, none)
  | b :: bs, log =>
      match runBatch t env b log with
      | (log', none) => runBatches t env bs log'
      | (log', some e) => (log', some e)

/-- Observable outcome of `APIStressTester.run`: the log file contents, the
(untouched) `self.results` field, the exception propagated to the caller if
any, and the method's Python return value.  `run` has no `return`
statement, so on normal completion it returns `None`: `retVal = none`. -/
structure RunState where
  log : List Result
  results : List Result
  err : Option String
  retVal : Option (List Result)

/-- `APIStressTester.run`, started on a log file whose current contents are
`initLog` (the method itself only ever appends via `_log_result`). -/
def APIStressTester.run (t : APIStressTester) (env : Env)
    (initLog : List Result) : RunState :=
  match runBatches t env t.batches initLog with
  | (log, err) =>
      { log := log
        results := t.results
        err := err
        retVal := none }

/-- `run_stress_test`: create the log directory (external), truncate the log
file with `open(log_file, 'w')` — discarding `prior` —, construct the tester
and run it.  The truncation, and only it, is what clears pre-existing log
content. -/
def run_stress_test (url : String) (total_requests : Int)
    (concurrent_requests : Int) (headers : Option (List (String × String)))
    (params : Option (List (String × String))) (method : String)
    (log_file : String) (timeout : Rat) (env : Env)
    (prior : List Result) : RunState :=
  (APIStressTester.init url total_requests concurrent_requests headers params
    method log_file timeout).run env []

/-- Records a batch actually appends to the log: one per task whose sink
write succeeds, in task order. -/
def batchLogged (t : APIStressTester) (env : Env) (b : List Nat) :
    List Result :=
  (b.filter (fun rid => (env.sinkErr rid).isNone)).map (t.buildResult env)

/-- The first sink write error raised inside a batch, if any. -/
def batchErr (env : Env) (b : List Nat) : Option String :=
  (b.filterMap env.sinkErr).head?

/-- Records the whole run appends: every batch before the first failing one
in full, then the non-failing appends of the failing batch, then nothing. -/
def runLogged (t : APIStressTester) (env : Env) :
    List (List Nat) → List Result
  | [] => []
  | b :: bs =>
      match batchErr env b with
      | some _ => batchLogged t env b
      | none => batchLogged t env b ++ runLogged t env bs

/-- The error the run propagates: the error of the first failing batch. -/
def runErr (env : Env) : List (List Nat) → Option String
  | [] => none
  | b :: bs =>
      match batchErr env b with
      | some e => some e
      | none => runErr env bs

/-- An environment where every request raises a transport error and every
sink write succeeds. -/
def envRefused : Env :=
  { http := fun _ => HttpOutcome.exn "connection refused"
    elapsedMs := fun _ => 5
    startTimestamp := fun _ => "2026-01-01T00:00:00"
    sinkErr := fun _ => none }

/-- A completed exchange with status 500 and a non-JSON body. -/
def resp500 : HttpResponse :=
  { status_code := 500
    headers := [("content-type", "text/plain")]
    content := [101, 114, 114]
    json := none
    text := "err" }

/-- An environment where every request completes with `resp500`. -/
def env500 : Env :=
  { envRefused with http := fun _ => HttpOutcome.resp resp500 }

/-- An environment where the sink write for request 2 raises "disk full". -/
def envSinkFail : Env :=
  { envRefused with
    sinkErr := fun rid => if rid = 2 then some "disk full" else none }

/-- A completed exchange with status 200 and a JSON body. -/
def resp200 : HttpResponse :=
  { status_code := 200
    headers := [("content-type", "application/json")]
    content := [123, 125]
    json := some (JsonVal.obj [])
    text := "\x7b\x7d" }

/-- An environment where every request completes with `resp200`. -/
def env200 : Env :=
  { envRefused with http := fun _ => HttpOutcome.resp resp200 }

/-- Tester with 3 total requests, concurrency 2. -/
def t32 : APIStressTester :=
  APIStressTester.init "https://example.org/api" 3 2 none none "get"
    "logs/test.jsonl" 30

/-- Tester with 5 total requests, concurrency 2. -/
def t52 : APIStressTester :=
  APIStressTester.init "https://example.org/api" 5 2 none none "get"
    "logs/test.jsonl" 30

/-- Tester with 2 total requests, concurrency 1. -/
def t21 : APIStressTester :=
  APIStressTester.init "https://example.org/api" 2 1 none none "get"
    "logs/test.jsonl" 30

/-- Tester with 3 total requests, concurrency 1. -/
def t31 : APIStressTester :=
  APIStressTester.init "https://example.org/api" 3 1 none none "get"
    "logs/test.jsonl" 30

/-- Tester with 1 total request and the invalid concurrency 0. -/
def t10 : APIStressTester :=
  APIStressTester.init "https://example.org/api" 1 0 none none "get"
    "logs/test.jsonl" 30

/-- Tester with 2 total requests and the invalid concurrency 0. -/
def t20 : APIStressTester :=
  APIStressTester.init "https://example.org/api" 2 0 none none "get"
    "logs/test.jsonl" 30

theorem buildResult_request_id (t : APIStressTester) (env : Env) (rid : Nat) :
    (t.buildResult env rid).request_id = rid := by
  unfold APIStressTester.buildResult
  cases env.http rid <;> rfl

theorem make_request_sink_ok (t : APIStressTester) (env : Env) (rid : Nat)
    (log : List Result) (h : env.sinkErr rid = none) :
    t.make_request env rid log =
      (log ++ [t.buildResult env rid], Except.ok (t.buildResult env rid)) := by
  simp only [APIStressTester.make_request, APIStressTester.log_result,
    buildResult_request_id, h]

theorem make_request_sink_err (t : APIStressTester) (env : Env) (rid : Nat)
    (log : List Result) (e : String) (h : env.sinkErr rid = some e) :
    t.make_request env rid log = (log, Except.error e) := by
  simp only [APIStressTester.make_request, APIStressTester.log_result,
    buildResult_request_id, h]

theorem runBatch_eq (t : APIStressTester) (env : Env) : ∀ (b : List Nat)
    (log : List Result),
    runBatch t env b log = (log ++ batchLogged t env b, batchErr env b) := by
  intro b
  induction b with
  | nil => intro log; simp [runBatch, batchLogged, batchErr]
  | cons rid rest ih =>
      intro log
      cases h : env.sinkErr rid with
      | none =>
          rw [runBatch, make_request_sink_ok t env rid log h]
          simp only [ih]
          simp [batchLogged, batchErr, h, List.filter_cons,
            List.filterMap_cons]
      | some e =>
          rw [runBatch, make_request_sink_err t env rid log e h]
          simp only [ih]
          simp [batchLogged, batchErr, h, List.filter_cons,
            List.filterMap_cons]

theorem runBatches_eq (t : APIStressTester) (env : Env) :
    ∀ (bs : List (List Nat)) (log : List Result),
    runBatches t env bs log =
      (log ++ runLogged t env bs, runErr env bs) := by
  intro bs
  induction bs with
  | nil => intro log; simp [runBatches, runLogged, runErr]
  | cons b rest ih =>
      intro log
      rw [runBatches, runBatch_eq]
      cases h : batchErr env b with
      | none =>
          simp only [ih]
          simp [runLogged, runErr, h]
      | some e => simp [runLogged, runErr, h]

theorem run_eq (t : APIStressTester) (env : Env) (init : List Result) :
    t.run env init =
      { log := init ++ runLogged t env t.batches
        results := t.results
        err := runErr env t.batches
        retVal := none } := by
  rw [APIStressTester.run, runBatches_eq]

theorem dispatchLoop_flatten : ∀ (ids buf : List Nat) (c : Int),
    (dispatchLoop ids buf c).flatten = buf ++ ids := by
  intro ids
  induction ids with
  | nil =>
      intro buf c
      cases buf <;> simp [dispatchLoop]
  | cons id rest ih =>
      intro buf c
      rw [dispatchLoop]
      split
      · simp [ih]
      · simp [ih]

theorem dispatchIds_eq (t : APIStressTester) :
    t.dispatchIds = List.range' 1 t.total_requests.toNat := by
  rw [APIStressTester.dispatchIds, List.range'_eq_map_range]
  exact List.map_congr_left (fun a _ => Nat.add_comm a 1)

theorem batches_flatten (t : APIStressTester) :
    t.batches.flatten = t.dispatchIds := by
  rw [APIStressTester.batches, dispatchLoop_flatten]
  rfl

theorem dispatchLoop_length_le : ∀ (ids buf : List Nat) (c : Int),
    (buf.length : Int) < c →
    ∀ b ∈ dispatchLoop ids buf c, (b.length : Int) ≤ c := by
  intro ids
  induction ids with
  | nil =>
      intro buf c hbuf b hb
      cases buf with
      | nil => simp [dispatchLoop] at hb
      | cons x xs =>
          simp [dispatchLoop] at hb
          subst hb
          exact le_of_lt hbuf
  | cons id rest ih =>
      intro buf c hbuf b hb
      rw [dispatchLoop] at hb
      by_cases h : c ≤ ((buf ++ [id]).length : Int)
      · simp only [if_pos h] at hb
        rcases List.mem_cons.mp hb with rfl | hb'
        · simp only [List.length_append, List.length_cons, List.length_nil]
          omega
        · refine ih [] c ?_ b hb'
          simp only [List.length_nil, Int.ofNat_zero]
          omega
      · simp only [if_neg h] at hb
        refine ih (buf ++ [id]) c ?_ b hb
        omega

theorem dispatchLoop_dropLast : ∀ (ids buf : List Nat) (c : Int),
    (buf.length : Int) < c →
    ∀ b ∈ (dispatchLoop ids buf c).dropLast, (b.length : Int) = c := by
  intro ids
  induction ids with
  | nil =>
      intro buf c hbuf b hb
      cases buf <;> simp [dispatchLoop] at hb
  | cons id rest ih =>
      intro buf c hbuf b hb
      rw [dispatchLoop] at hb
      by_cases h : c ≤ ((buf ++ [id]).length : Int)
      · simp only [if_pos h] at hb
        cases hrec : dispatchLoop rest [] c with
        | nil => rw [hrec] at hb; simp [List.dropLast] at hb
        | cons y ys =>
            rw [hrec, List.dropLast_cons₂] at hb
            rcases List.mem_cons.mp hb with rfl | hb'
            · simp only [List.length_append, List.length_cons, List.length_nil]
              simp only [List.length_append, List.length_cons,
                List.length_nil] at h
              omega
            · refine ih [] c ?_ b ?_
              · simp only [List.length_nil, Int.ofNat_zero]; omega
              · rw [hrec]; exact hb'
      · simp only [if_neg h] at hb
        refine ih (buf ++ [id]) c ?_ b hb
        omega

theorem dispatchLoop_nonpos : ∀ (ids : List Nat) (c : Int), c ≤ 0 →
    dispatchLoop ids [] c = ids.map (fun i => [i]) := by
  intro ids
  induction ids with
  | nil => intro c _; simp [dispatchLoop]
  | cons id rest ih =>
      intro c hc
      rw [dispatchLoop]
      split
      · simp only [List.nil_append, List.map_cons]
        rw [ih c hc]
      · rename_i h
        exfalso
        simp only [List.nil_append, List.length_cons, List.length_nil] at h
        omega

theorem batchErr_eq_none (env : Env) (b : List Nat) :
    batchErr env b = none ↔ ∀ rid ∈ b, env.sinkErr rid = none := by
  rw [batchErr, List.head?_eq_none_iff, List.filterMap_eq_nil_iff]

theorem batchErr_some_mem (env : Env) (b : List Nat) (e : String)
    (h : batchErr env b = some e) : ∃ rid ∈ b, env.sinkErr rid = some e := by
  have hmem : e ∈ b.filterMap env.sinkErr :=
    List.mem_of_mem_head? (by rw [batchErr] at h; simp [h])
  rcases List.mem_filterMap.mp hmem with ⟨rid, hrid, heq⟩
  exact ⟨rid, hrid, heq⟩

theorem batchLogged_clean (t : APIStressTester) (env : Env) (b : List Nat)
    (h : ∀ rid ∈ b, env.sinkErr rid = none) :
    batchLogged t env b = b.map (t.buildResult env) := by
  rw [batchLogged, List.filter_eq_self.mpr]
  intro rid hrid
  simp [h rid hrid]

theorem batchLogged_mem_id (t : APIStressTester) (env : Env) (b : List Nat)
    (r : Result) (h : r ∈ batchLogged t env b) : r.request_id ∈ b := by
  rw [batchLogged] at h
  rcases List.mem_map.mp h with ⟨rid, hrid, rfl⟩
  rw [buildResult_request_id]
  exact List.mem_of_mem_filter hrid

theorem runErr_eq_none (env : Env) : ∀ bs : List (List Nat),
    runErr env bs = none ↔ ∀ rid ∈ bs.flatten, env.sinkErr rid = none := by
  intro bs
  induction bs with
  | nil => simp [runErr]
  | cons b rest ih =>
      rw [runErr]
      cases h : batchErr env b with
      | none =>
          simp only [ih, List.flatten_cons]
          constructor
          · intro hall rid hrid
            rcases List.mem_append.mp hrid with hb | hrest
            · exact (batchErr_eq_none env b).mp h rid hb
            · exact hall rid hrest
          · intro hall rid hrid
            exact hall rid (List.mem_append.mpr (Or.inr hrid))
      | some e =>
          simp only [List.flatten_cons]
          constructor
          · intro hc; exact absurd hc (by simp)
          · intro hall
            rcases batchErr_some_mem env b e h with ⟨rid, hrid, hsome⟩
            have := hall rid (List.mem_append.mpr (Or.inl hrid))
            rw [this] at hsome
            exact absurd hsome (by simp)

theorem runErr_some_mem (env : Env) : ∀ (bs : List (List Nat)) (e : String),
    runErr env bs = some e → ∃ rid ∈ bs.flatten, env.sinkErr rid = some e := by
  intro bs
  induction bs with
  | nil => intro e h; simp [runErr] at h
  | cons b rest ih =>
      intro e h
      rw [runErr] at h
      cases hb : batchErr env b with
      | none =>
          rw [hb] at h
          rcases ih e h with ⟨rid, hrid, hsome⟩
          exact ⟨rid, by simp [hrid], hsome⟩
      | some e' =>
          rw [hb] at h
          cases h
          rcases batchErr_some_mem env b e hb with ⟨rid, hrid, hsome⟩
          exact ⟨rid, by simp [hrid], hsome⟩

theorem runLogged_clean (t : APIStressTester) (env : Env) :
    ∀ bs : List (List Nat),
    (∀ rid ∈ bs.flatten, env.sinkErr rid = none) →
    runLogged t env bs = bs.flatten.map (t.buildResult env) := by
  intro bs
  induction bs with
  | nil => intro _; simp [runLogged]
  | cons b rest ih =>
      intro h
      have hb : ∀ rid ∈ b, env.sinkErr rid = none := by
        intro rid hrid
        exact h rid (by simp [hrid])
      have hrest : ∀ rid ∈ rest.flatten, env.sinkErr rid = none := by
        intro rid hrid
        exact h rid (by simp [hrid])
      rw [runLogged, (batchErr_eq_none env b).mpr hb, batchLogged_clean t env b hb,
        ih hrest]
      simp

theorem runLogged_append_clean (t : APIStressTester) (env : Env) :
    ∀ (pre bs : List (List Nat)),
    (∀ rid ∈ pre.flatten, env.sinkErr rid = none) →
    runLogged t env (pre ++ bs) =
      pre.flatten.map (t.buildResult env) ++ runLogged t env bs := by
  intro pre
  induction pre with
  | nil => intro bs _; simp
  | cons b rest ih =>
      intro bs h
      have hb : ∀ rid ∈ b, env.sinkErr rid = none := by
        intro rid hrid
        exact h rid (by simp [hrid])
      have hrest : ∀ rid ∈ rest.flatten, env.sinkErr rid = none := by
        intro rid hrid
        exact h rid (by simp [hrid])
      rw [List.cons_append, runLogged, (batchErr_eq_none env b).mpr hb,
        batchLogged_clean t env b hb, ih bs hrest]
      simp

theorem runErr_append_clean (env : Env) : ∀ (pre bs : List (List Nat)),
    (∀ rid ∈ pre.flatten, env.sinkErr rid = none) →
    runErr env (pre ++ bs) = runErr env bs := by
  intro pre
  induction pre with
  | nil => intro bs _; simp
  | cons b rest ih =>
      intro bs h
      have hb : ∀ rid ∈ b, env.sinkErr rid = none := by
        intro rid hrid
        exact h rid (by simp [hrid])
      have hrest : ∀ rid ∈ rest.flatten, env.sinkErr rid = none := by
        intro rid hrid
        exact h rid (by simp [hrid])
      rw [List.cons_append, runErr, (batchErr_eq_none env b).mpr hb, ih bs hrest]

theorem make_request_ok_eq (t : APIStressTester) (env : Env) (rid : Nat)
    (log : List Result) (r : Result)
    (h : (t.make_request env rid log).2 = Except.ok r) :
    r = t.buildResult env rid := by
  cases hs : env.sinkErr rid with
  | none =>
      rw [make_request_sink_ok t env rid log hs] at h
      injection h with h
      exact h.symm
  | some e =>
      rw [make_request_sink_err t env rid log e hs] at h
      simp at h

/-- C3: for `totalRequests ≥ 0` and `concurrency ≥ 1`, the run partitions
requestIds 1..totalRequests into consecutive batches of size at most
`concurrency`, with every batch except possibly the last of size exactly
`concurrency`.  `runBatches` completes each batch's `gather` before starting
the next (its recursion only reaches the tail after `runBatch` has executed
the whole batch), so at most one batch — hence at most `concurrency`
Executor invocations, the maximum batch size — is in flight at any time. -/
theorem batches_partition_bounded (t : APIStressTester)
    (hN : 0 ≤ t.total_requests) (hc : 1 ≤ t.concurrent_requests) :
    t.batches.flatten = List.range' 1 t.total_requests.toNat
    ∧ (∀ b ∈ t.batches, (b.length : Int) ≤ t.concurrent_requests)
    ∧ (∀ b ∈ t.batches.dropLast,
        (b.length : Int) = t.concurrent_requests) := by
  have hbuf : ((List.length ([] : List Nat) : Int)) < t.concurrent_requests := by
    simp only [List.length_nil, Nat.cast_zero]
    omega
  refine ⟨?_, ?_, ?_⟩
  · rw [batches_flatten, dispatchIds_eq]
  · intro b hb
    exact dispatchLoop_length_le t.dispatchIds [] t.concurrent_requests hbuf b hb
  · intro b hb
    exact dispatchLoop_dropLast t.dispatchIds [] t.concurrent_requests hbuf b hb

/-- Witness for the batching theorem: 5 requests at concurrency 2 give the
batches [[1,2],[3,4],[5]]. -/
theorem batches_partition_bounded_w :
    0 ≤ t52.total_requests ∧ 1 ≤ t52.concurrent_requests ∧
    (t52.batches.flatten = List.range' 1 t52.total_requests.toNat
     ∧ (∀ b ∈ t52.batches, (b.length : Int) ≤ t52.concurrent_requests)
     ∧ (∀ b ∈ t52.batches.dropLast,
         (b.length : Int) = t52.concurrent_requests)) :=
  ⟨by decide, by decide,
    batches_partition_bounded t52 (by decide) (by decide)⟩

/-- C4: for every run with `totalRequests = N ≥ 0` (and a sink whose writes
succeed, the situation the claim describes — a failing sink aborts the run
and is the subject of the sink-error claim), the dispatched requestIds are
exactly the contiguous range [1, N] with no duplicates or gaps, each id is
dispatched in exactly one batch, and exactly one Result per requestId is
appended to the sink, whatever the per-request HTTP outcome. -/
theorem ids_contiguous_one_result_each (t : APIStressTester) (env : Env)
    (init : List Result) (hN : 0 ≤ t.total_requests)
    (hsink : ∀ rid, env.sinkErr rid = none) :
    t.dispatchIds = List.range' 1 t.total_requests.toNat
    ∧ t.dispatchIds.Nodup
    ∧ t.batches.flatten = t.dispatchIds
    ∧ ∃ new, (t.run env init).log = init ++ new
        ∧ new.length = t.total_requests.toNat
        ∧ (new.map Result.request_id).Perm
            (List.range' 1 t.total_requests.toNat) := by
  have hclean : ∀ rid ∈ t.batches.flatten, env.sinkErr rid = none :=
    fun rid _ => hsink rid
  have hlog : runLogged t env t.batches =
      t.batches.flatten.map (t.buildResult env) :=
    runLogged_clean t env t.batches hclean
  have hids : (runLogged t env t.batches).map Result.request_id =
      List.range' 1 t.total_requests.toNat := by
    rw [hlog, List.map_map]
    have : t.batches.flatten.map (Result.request_id ∘ t.buildResult env) =
        t.batches.flatten.map id :=
      List.map_congr_left (fun rid _ => buildResult_request_id t env rid)
    rw [this, List.map_id, batches_flatten, dispatchIds_eq]
  refine ⟨dispatchIds_eq t, ?_, batches_flatten t,
    runLogged t env t.batches, ?_, ?_, ?_⟩
  · rw [dispatchIds_eq]
    exact List.nodup_range' 1 t.total_requests.toNat
  · rw [run_eq]
  · have := congrArg List.length hids
    simpa using this
  · rw [hids]

/-- Witness for the contiguous-ids theorem: 3 requests at concurrency 2
against an always-failing transport still log ids [1, 2, 3]. -/
theorem ids_contiguous_one_result_each_w :
    0 ≤ t32.total_requests ∧
    (t32.dispatchIds = List.range' 1 t32.total_requests.toNat
     ∧ t32.dispatchIds.Nodup
     ∧ t32.batches.flatten = t32.dispatchIds
     ∧ ∃ new, (t32.run envRefused []).log = [] ++ new
         ∧ new.length = t32.total_requests.toNat
         ∧ (new.map Result.request_id).Perm
             (List.range' 1 t32.total_requests.toNat)) :=
  ⟨by decide,
    ids_contiguous_one_result_each t32 envRefused [] (by decide)
      (fun _ => rfl)⟩

/-- C1 counterexample: with totalRequests = 2, concurrency = 1, the run
appends two Results to the sink, but `run` has no `return` statement — its
Python return value is `None` (`retVal = none`) — and `self.results` stays
empty; no RunResult sequence of length 2 is returned. -/
theorem run_returns_none_cex :
    (t21.run envRefused []).log.length = 2
    ∧ (t21.run envRefused []).retVal = none
    ∧ (t21.run envRefused []).results = [] :=
  ⟨by decide, rfl, rfl⟩

/-- C1 amended: `run` does not return the produced Results — it returns
`None` and never populates `self.results` (initialised to `[]` in
`__init__` and then never written).  What does hold: for `totalRequests ≥ 0`,
`concurrency ≥ 1` and a sink whose writes succeed, the run completes without
error and hands exactly one Result per requestId 1..totalRequests to the
sink; the sink log is the only place the Results can be observed. -/
theorem run_logs_all_returns_none (t : APIStressTester) (env : Env)
    (init : List Result) (hN : 0 ≤ t.total_requests)
    (hc : 1 ≤ t.concurrent_requests)
    (hsink : ∀ rid, env.sinkErr rid = none) :
    (t.run env init).err = none
    ∧ (t.run env init).retVal = none
    ∧ (t.run env init).results = t.results
    ∧ ∃ new, (t.run env init).log = init ++ new
        ∧ new.length = t.total_requests.toNat
        ∧ (new.map Result.request_id).Perm
            (List.range' 1 t.total_requests.toNat) := by
  have hclean : ∀ rid ∈ t.batches.flatten, env.sinkErr rid = none :=
    fun rid _ => hsink rid
  have hids : (runLogged t env t.batches).map Result.request_id =
      List.range' 1 t.total_requests.toNat := by
    rw [runLogged_clean t env t.batches hclean, List.map_map]
    have : t.batches.flatten.map (Result.request_id ∘ t.buildResult env) =
        t.batches.flatten.map id :=
      List.map_congr_left (fun rid _ => buildResult_request_id t env rid)
    rw [this, List.map_id, batches_flatten, dispatchIds_eq]
  refine ⟨?_, ?_, ?_, runLogged t env t.batches, ?_, ?_, ?_⟩
  · rw [run_eq]
    exact (runErr_eq_none env t.batches).mpr hclean
  · rw [run_eq]
  · rw [run_eq]
  · rw [run_eq]
  · have := congrArg List.length hids
    simpa using this
  · rw [hids]

/-- Witness for the amended aggregation theorem, at 2 requests and
concurrency 1 against an always-failing transport. -/
theorem run_logs_all_returns_none_w :
    0 ≤ t21.total_requests ∧ 1 ≤ t21.concurrent_requests ∧
    ((t21.run envRefused []).err = none
     ∧ (t21.run envRefused []).retVal = none
     ∧ (t21.run envRefused []).results = t21.results
     ∧ ∃ new, (t21.run envRefused []).log = [] ++ new
         ∧ new.length = t21.total_requests.toNat
         ∧ (new.map Result.request_id).Perm
             (List.range' 1 t21.total_requests.toNat)) :=
  ⟨by decide, by decide,
    run_logs_all_returns_none t21 envRefused [] (by decide) (by decide)
      (fun _ => rfl)⟩

/-- C2 counterexample: neither `__init__` nor `run` validates the
configuration.  With totalRequests = 1 and the invalid concurrency 0, the
run raises no configuration error and dispatches the request (one record is
appended to the sink), contradicting "fails fast with an explicit
configuration error ... and no request is dispatched". -/
theorem no_validation_cex :
    (t10.run envRefused []).err = none
    ∧ (t10.run envRefused []).log.length = 1 :=
  ⟨rfl, by decide⟩

/-- C2 amended: no validation is performed.  For any `concurrency ≤ 0` the
buffer-full test `len(tasks) >= self.concurrent_requests` is true after
every task, so the run degenerates to batches of size 1: every request is
still dispatched, and (when the sink writes succeed) the run completes
without raising any error. -/
theorem no_validation_amended (t : APIStressTester) (env : Env)
    (init : List Result) (hc : t.concurrent_requests ≤ 0)
    (hsink : ∀ rid, env.sinkErr rid = none) :
    t.batches = t.dispatchIds.map (fun i => [i])
    ∧ (t.run env init).err = none
    ∧ (t.run env init).log.length =
        init.length + t.total_requests.toNat := by
  have hclean : ∀ rid ∈ t.batches.flatten, env.sinkErr rid = none :=
    fun rid _ => hsink rid
  refine ⟨?_, ?_, ?_⟩
  · rw [APIStressTester.batches]
    exact dispatchLoop_nonpos t.dispatchIds t.concurrent_requests hc
  · rw [run_eq]
    exact (runErr_eq_none env t.batches).mpr hclean
  · rw [run_eq]
    have hlen : (runLogged t env t.batches).length =
        t.total_requests.toNat := by
      rw [runLogged_clean t env t.batches hclean]
      have : t.batches.flatten.length = t.dispatchIds.length := by
        rw [batches_flatten]
      simp only [List.length_map, this, dispatchIds_eq]
      simp
    simp [hlen]

/-- Witness for the no-validation theorem: 2 requests at concurrency 0 run
as the singleton batches [[1],[2]] and complete without error. -/
theorem no_validation_amended_w :
    t20.concurrent_requests ≤ 0 ∧
    (t20.batches = t20.dispatchIds.map (fun i => [i])
     ∧ (t20.run envRefused []).err = none
     ∧ (t20.run envRefused []).log.length =
         List.length ([] : List Result) + t20.total_requests.toNat) :=
  ⟨by decide,
    no_validation_amended t20 envRefused [] (by decide) (fun _ => rfl)⟩

/-- C5: every Result has exactly one of an HTTP status code or an error
message (the failure branch writes `"status_code": None`, i.e. JSON `null`,
modelled as `none`); on a transport failure the exception message `str(e)`
is captured into `error` and no status code is recorded. -/
theorem result_status_xor_error (t : APIStressTester) (env : Env) (rid : Nat)
    (log : List Result) (r : Result)
    (h : (t.make_request env rid log).2 = Except.ok r) :
    (((∃ sc, r.status_code = some sc) ∧ r.error = none)
      ∨ (r.status_code = none ∧ ∃ m, r.error = some m))
    ∧ ∀ m, env.http rid = HttpOutcome.exn m →
        r.status_code = none ∧ r.error = some m := by
  have hr := make_request_ok_eq t env rid log r h
  subst hr
  cases henv : env.http rid with
  | resp r0 =>
      constructor
      · left
        exact ⟨⟨r0.status_code, by simp [APIStressTester.buildResult, henv]⟩,
          by simp [APIStressTester.buildResult, henv]⟩
      · intro m hm
        exact HttpOutcome.noConfusion hm
  | exn m0 =>
      constructor
      · right
        exact ⟨by simp [APIStressTester.buildResult, henv],
          ⟨m0, by simp [APIStressTester.buildResult, henv]⟩⟩
      · intro m hm
        injection hm with hm
        subst hm
        exact ⟨by simp [APIStressTester.buildResult, henv],
          by simp [APIStressTester.buildResult, henv]⟩

/-- Witness for the status-xor-error theorem: a request that raises
"connection refused" yields a Result with no status code and that error. -/
theorem result_status_xor_error_w :
    (t21.make_request envRefused 1 []).2 =
        Except.ok (t21.buildResult envRefused 1)
    ∧ ((((∃ sc, (t21.buildResult envRefused 1).status_code = some sc)
          ∧ (t21.buildResult envRefused 1).error = none)
        ∨ ((t21.buildResult envRefused 1).status_code = none
          ∧ ∃ m, (t21.buildResult envRefused 1).error = some m))
      ∧ ∀ m, envRefused.http 1 = HttpOutcome.exn m →
          (t21.buildResult envRefused 1).status_code = none
          ∧ (t21.buildResult envRefused 1).error = some m) :=
  ⟨rfl, result_status_xor_error t21 envRefused 1 [] _ rfl⟩

/-- C6: `success` is true exactly when a status code is present and lies in
[200, 300); a completed exchange with any other status (4xx/5xx) is not an
executor failure — its status code is recorded and no `error` key is set. -/
theorem success_iff_2xx (t : APIStressTester) (env : Env) (rid : Nat)
    (log : List Result) (r : Result)
    (h : (t.make_request env rid log).2 = Except.ok r) :
    (r.success = true ↔
      ∃ sc, r.status_code = some sc ∧ 200 ≤ sc ∧ sc < 300)
    ∧ ∀ resp, env.http rid = HttpOutcome.resp resp →
        r.status_code = some resp.status_code ∧ r.error = none := by
  have hr := make_request_ok_eq t env rid log r h
  subst hr
  cases henv : env.http rid with
  | resp r0 =>
      refine ⟨?_, ?_⟩
      · simp only [APIStressTester.buildResult, henv]
        constructor
        · intro hs
          exact ⟨r0.status_code, rfl, of_decide_eq_true hs⟩
        · rintro ⟨sc, hsc, hrange⟩
          have hsc' : sc = r0.status_code := by
            injection hsc with h'
            exact h'.symm
          subst hsc'
          exact decide_eq_true hrange
      · intro resp0 hresp
        injection hresp with h'
        subst h'
        exact ⟨by simp [APIStressTester.buildResult, henv],
          by simp [APIStressTester.buildResult, henv]⟩
  | exn m0 =>
      refine ⟨?_, ?_⟩
      · simp only [APIStressTester.buildResult, henv]
        constructor
        · intro hs
          simp at hs
        · rintro ⟨sc, hsc, _⟩
          exact Option.noConfusion hsc
      · intro resp0 hresp
        exact HttpOutcome.noConfusion hresp

/-- Witness for the success-iff-2xx theorem: a completed HTTP 500 exchange
records the status and no error, and is not a success. -/
theorem success_iff_2xx_w :
    (t21.make_request env500 1 []).2 =
        Except.ok (t21.buildResult env500 1)
    ∧ (((t21.buildResult env500 1).success = true ↔
          ∃ sc, (t21.buildResult env500 1).status_code = some sc
            ∧ 200 ≤ sc ∧ sc < 300)
       ∧ ∀ resp, env500.http 1 = HttpOutcome.resp resp →
           (t21.buildResult env500 1).status_code = some resp.status_code
           ∧ (t21.buildResult env500 1).error = none) :=
  ⟨rfl, success_iff_2xx t21 env500 1 [] _ rfl⟩

/-- C7: the request executor never lets an HTTP failure escape: whatever the
transport outcome, when the sink append succeeds `make_request` returns a
Result normally, a raised transport exception is captured into that Result's
`error` field, and the only exception `make_request` can propagate is a sink
write error raised by `_log_result` (which sits outside the `try` block). -/
theorem executor_never_raises (t : APIStressTester) (env : Env) (rid : Nat)
    (log : List Result) :
    (env.sinkErr rid = none →
      t.make_request env rid log =
        (log ++ [t.buildResult env rid],
          Except.ok (t.buildResult env rid)))
    ∧ (∀ m, env.http rid = HttpOutcome.exn m →
        (t.buildResult env rid).error = some m)
    ∧ (∀ e, (t.make_request env rid log).2 = Except.error e →
        env.sinkErr rid = some e) := by
  refine ⟨fun h => make_request_sink_ok t env rid log h, ?_, ?_⟩
  · intro m hm
    simp [APIStressTester.buildResult, hm]
  · intro e he
    cases hs : env.sinkErr rid with
    | none =>
        rw [make_request_sink_ok t env rid log hs] at he
        simp at he
    | some e' =>
        rw [make_request_sink_err t env rid log e' hs] at he
        injection he with h'
        rw [h']

/-- Witness for the executor theorem: a refused connection is captured into
the Result's error and the call returns normally. -/
theorem executor_never_raises_w :
    envRefused.sinkErr 1 = none
    ∧ t21.make_request envRefused 1 [] =
        ([] ++ [t21.buildResult envRefused 1],
          Except.ok (t21.buildResult envRefused 1))
    ∧ (t21.buildResult envRefused 1).error = some "connection refused" :=
  ⟨rfl, (executor_never_raises t21 envRefused 1 []).1 rfl,
    (executor_never_raises t21 envRefused 1 []).2.1 "connection refused" rfl⟩

/-- C8: a sink write error is propagated out of the run and aborts it: when
every append of the batches before `b` succeeds and some append in batch `b`
raises, `run` propagates an error (and any error it propagates is an actual
sink write error of a dispatched request), and nothing from any batch after
`b` is appended — the remaining requests are never dispatched. -/
theorem sink_error_aborts (t : APIStressTester) (env : Env)
    (init : List Result) (pre post : List (List Nat)) (b : List Nat)
    (hsplit : t.batches = pre ++ b :: post)
    (hpre : ∀ rid ∈ pre.flatten, env.sinkErr rid = none)
    (hb : ∃ rid ∈ b, (env.sinkErr rid).isSome) :
    (t.run env init).err.isSome = true
    ∧ (∀ e, (t.run env init).err = some e →
        ∃ rid ∈ t.dispatchIds, env.sinkErr rid = some e)
    ∧ ∀ r ∈ (t.run env init).log,
        r ∈ init ∨ r.request_id ∈ pre.flatten ++ b := by
  have hbe : batchErr env b ≠ none := by
    rcases hb with ⟨rid, hrid, hsome⟩
    intro hnone
    have := (batchErr_eq_none env b).mp hnone rid hrid
    rw [this] at hsome
    simp at hsome
  obtain ⟨e0, hbe2⟩ : ∃ e0, batchErr env b = some e0 := by
    cases h' : batchErr env b with
    | none => exact absurd h' hbe
    | some e0 => exact ⟨e0, rfl⟩
  have herr : runErr env t.batches = some e0 := by
    rw [hsplit, runErr_append_clean env pre (b :: post) hpre, runErr, hbe2]
  have hlog : runLogged t env t.batches =
      pre.flatten.map (t.buildResult env) ++ batchLogged t env b := by
    rw [hsplit, runLogged_append_clean t env pre (b :: post) hpre, runLogged,
      hbe2]
  refine ⟨?_, ?_, ?_⟩
  · rw [run_eq]
    simp [herr]
  · intro e he
    rw [run_eq] at he
    rcases runErr_some_mem env t.batches e he with ⟨rid, hrid, hsome⟩
    refine ⟨rid, ?_, hsome⟩
    rw [← batches_flatten]
    exact hrid
  · intro r hr
    rw [run_eq] at hr
    have hr' : r ∈ init ++ runLogged t env t.batches := hr
    rw [hlog] at hr'
    rcases List.mem_append.mp hr' with hinit | hnew
    · exact Or.inl hinit
    · right
      rcases List.mem_append.mp hnew with hpre' | hbat
      · rcases List.mem_map.mp hpre' with ⟨rid, hrid, rfl⟩
        rw [buildResult_request_id]
        exact List.mem_append.mpr (Or.inl hrid)
      · exact List.mem_append.mpr
          (Or.inr (batchLogged_mem_id t env b r hbat))

/-- Witness for the sink-error theorem: 3 requests at concurrency 1 with the
write for request 2 failing — the run propagates "disk full" and request 3
is never dispatched. -/
theorem sink_error_aborts_w :
    t31.batches = [[1]] ++ [2] :: [[3]]
    ∧ (∀ rid ∈ ([[1]] : List (List Nat)).flatten,
        envSinkFail.sinkErr rid = none)
    ∧ (∃ rid ∈ ([2] : List Nat), (envSinkFail.sinkErr rid).isSome)
    ∧ ((t31.run envSinkFail []).err.isSome = true
       ∧ (∀ e, (t31.run envSinkFail []).err = some e →
           ∃ rid ∈ t31.dispatchIds, envSinkFail.sinkErr rid = some e)
       ∧ ∀ r ∈ (t31.run envSinkFail []).log,
           r ∈ ([] : List Result)
           ∨ r.request_id ∈ ([[1]] : List (List Nat)).flatten ++ [2]) :=
  ⟨by decide, by decide, by decide,
    sink_error_aborts t31 envSinkFail [] [[1]] [[3]] [2] (by decide)
      (by decide) (by decide)⟩

/-- C9: on a completed exchange the executor stores the parsed JSON value in
`response_body` when `response.json()` succeeds and the raw response text
when parsing fails; the bare `except:` around the parse means the fallback
never raises, and `make_request` still returns its Result normally (when the
sink append succeeds). -/
theorem body_json_fallback (t : APIStressTester) (env : Env) (rid : Nat)
    (log : List Result) (resp : HttpResponse)
    (h : env.http rid = HttpOutcome.resp resp) :
    (resp.json = none →
      (t.buildResult env rid).response_body =
        some (RespBody.text resp.text))
    ∧ (∀ j, resp.json = some j →
      (t.buildResult env rid).response_body = some (RespBody.json j))
    ∧ (env.sinkErr rid = none →
      (t.make_request env rid log).2 =
        Except.ok (t.buildResult env rid)) := by
  refine ⟨?_, ?_, ?_⟩
  · intro hj
    simp [APIStressTester.buildResult, h, hj]
  · intro j hj
    simp [APIStressTester.buildResult, h, hj]
  · intro hs
    rw [make_request_sink_ok t env rid log hs]

/-- Witness for the JSON-fallback theorem: an HTTP 500 response whose body
is not valid JSON has its raw text stored in `response_body`. -/
theorem body_json_fallback_w :
    env500.http 1 = HttpOutcome.resp resp500
    ∧ resp500.json = none
    ∧ (t21.buildResult env500 1).response_body =
        some (RespBody.text resp500.text)
    ∧ env500.sinkErr 1 = none
    ∧ (t21.make_request env500 1 []).2 =
        Except.ok (t21.buildResult env500 1) :=
  ⟨rfl, rfl, (body_json_fallback t21 env500 1 [] resp500 rfl).1 rfl,
    rfl, (body_json_fallback t21 env500 1 [] resp500 rfl).2.2 rfl⟩

/-- C10: `run` and `_log_result` only ever append — the log after `run`
extends its initial contents — while truncation happens solely in the
`run_stress_test` wrapper, whose `open(log_file, 'w')` discards the prior
contents before the tester is constructed and run against an empty file. -/
theorem log_append_only (t : APIStressTester) (env : Env)
    (init : List Result) :
    (∃ new, (t.run env init).log = init ++ new)
    ∧ ∀ (url : String) (total c : Int)
        (hs ps : Option (List (String × String))) (m lf : String)
        (tmo : Rat) (prior : List Result),
        run_stress_test url total c hs ps m lf tmo env prior =
          (APIStressTester.init url total c hs ps m lf tmo).run env [] := by
  constructor
  · exact ⟨runLogged t env t.batches, by rw [run_eq]⟩
  · intro url total c hs ps m lf tmo prior
    rfl

end StressTest
